import Mathlib

/-!
Verification development for the soroban-rpc serving core: the ledger bucket
retention window and its two index instantiations, the startup replay of
persisted ledgers in daemon.MustNew, the retention-window size computation,
configuration validation, the getLatestLedger RPC handler, daemon shutdown,
and the reflective config merge.

Definitions marked with a doc comment starting with the words Modelled from
the spec embed components whose source is not part of this tree (the
ledgerbucketwindow, events, transactions and ingest packages); everything
else is translated directly from the daemon, config and methods sources.
-/

/-- A ledger bucket: one per ledger sequence, immutable once created.
Modelled from the spec: the ledgerbucketwindow package is not in this tree;
per the data model a bucket is a sequence number plus a content payload. -/
structure LedgerBucket (T : Type) where
  sequence : Nat
  content : T
deriving Repr, DecidableEq

/-- Modelled from the spec: sliding window of per-sequence buckets from the
ledgerbucketwindow package (not in this tree), bounded to at most
retentionWindowSize buckets, keyed by strictly increasing contiguous
sequences. -/
structure LedgerBucketWindow (T : Type) where
  retentionWindowSize : Nat
  buckets : List (LedgerBucket T)
deriving Repr, DecidableEq

/-- Modelled from the spec: eviction from the head until the length equals
the bound; keeps the last n elements of the list. -/
def evictToBound {α : Type} (l : List α) (n : Nat) : List α :=
  l.drop (l.length - n)

/-- Modelled from the spec: Append inserts at the tail when the sequence is
lastSequence + 1 (any starting sequence is accepted on an empty window) and
evicts from the head down to the bound; an out-of-order sequence is an
OutOfOrderError, returned here as none. -/
def LedgerBucketWindow.append {T : Type} (w : LedgerBucketWindow T)
    (b : LedgerBucket T) : Option (LedgerBucketWindow T) :=
  match w.buckets.getLast? with
  | none =>
      some { w with buckets := evictToBound [b] w.retentionWindowSize }
  | some lastBucket =>
      if b.sequence = lastBucket.sequence + 1 then
        some { w with
          buckets := evictToBound (w.buckets ++ [b]) w.retentionWindowSize }
      else
        none

/-- Raw per-ledger close meta as persisted in the durable store and streamed
by the backend. The wellFormed flag stands for whether the raw XDR decodes;
eventPayload and txPayload are the record lists its decoding yields. -/
structure LedgerCloseMeta where
  sequence : Nat
  wellFormed : Bool
  eventPayload : List Nat
  txPayload : List Nat
deriving Repr, DecidableEq

/-- Event index store: a retention window of per-ledger event record lists. -/
def EventStore : Type := LedgerBucketWindow (List Nat)

/-- Transaction index store: a retention window of per-ledger transaction
record lists. -/
def TransactionStore : Type := LedgerBucketWindow (List Nat)

/-- A fresh (empty) store with the given retention window size. -/
def freshStore (windowSize : Nat) : LedgerBucketWindow (List Nat) :=
  { retentionWindowSize := windowSize, buckets := [] }

/-- Modelled from the spec: IngestLedger of an index decodes all records of
one ledger fully in memory (DecodeError on malformed meta, returned as none)
and then appends the bucket to the window; the events and transactions
packages are not in this tree. -/
def ingestLedger (payload : LedgerCloseMeta → List Nat)
    (w : LedgerBucketWindow (List Nat)) (m : LedgerCloseMeta) :
    Option (LedgerBucketWindow (List Nat)) :=
  if m.wellFormed then w.append ⟨m.sequence, payload m⟩ else none

/-- Modelled from the spec: events.MemoryStore.IngestEvents ingests the event
records of one ledger into the event window. -/
def IngestEvents (s : EventStore) (m : LedgerCloseMeta) : Option EventStore :=
  ingestLedger (fun meta => meta.eventPayload) s m

/-- Modelled from the spec: transactions.MemoryStore.IngestTransactions
ingests the transaction records of one ledger into the transaction window. -/
def IngestTransactions (s : TransactionStore) (m : LedgerCloseMeta) :
    Option TransactionStore :=
  ingestLedger (fun meta => meta.txPayload) s m

/-- Outcome of daemon construction steps: logger.Fatal terminates the
process; ok carries the constructed value. -/
inductive StartupOutcome (α : Type) where
  | fatal (msg : String)
  | ok (value : α)
deriving Repr

/-- The store initialization loop of daemon.MustNew: for each persisted
txmeta, in order, IngestEvents then IngestTransactions, calling logger.Fatal
on any error. The second component records the ledger sequences actually
passed to the ingestion calls. -/
def startupReplayLoop (es : EventStore) (ts : TransactionStore)
    (trace : List Nat) :
    List LedgerCloseMeta →
      StartupOutcome (EventStore × TransactionStore) × List Nat
  | [] => (.ok (es, ts), trace)
  | m :: rest =>
    let trace2 := trace ++ [m.sequence]
    match IngestEvents es m with
    | none => (.fatal "could initialize event memory store", trace2)
    | some es2 =>
      match IngestTransactions ts m with
      | none => (.fatal "could initialize transaction memory store", trace2)
      | some ts2 => startupReplayLoop es2 ts2 trace2 rest

/-- The store initialization of daemon.MustNew: GetAllLedgers from the
durable store (an error is a logger.Fatal), then the replay loop over every
returned txmeta. -/
def storeInitialization
    (getAllLedgersResult : Except String (List LedgerCloseMeta))
    (es : EventStore) (ts : TransactionStore) :
    StartupOutcome (EventStore × TransactionStore) :=
  match getAllLedgersResult with
  | .error _ => .fatal "could obtain txmeta cache from the database"
  | .ok txmetas => (startupReplayLoop es ts [] txmetas).1

/-- Modelled from the spec: the live ingestion path of ingest.Service (not in
this tree) applies the same IngestEvents and IngestTransactions calls per
ledger, oldest to newest; a failing attempt produces no new stores (none). -/
def liveIngestLedgers (es : EventStore) (ts : TransactionStore) :
    List LedgerCloseMeta → Option (EventStore × TransactionStore)
  | [] => some (es, ts)
  | m :: rest =>
    match IngestEvents es m with
    | none => none
    | some es2 =>
      match IngestTransactions ts m with
      | none => none
      | some ts2 => liveIngestLedgers es2 ts2 rest

/-- View of a startup outcome as an option, fatal mapping to none. -/
def StartupOutcome.toOption {α : Type} : StartupOutcome α → Option α
  | .fatal _ => none
  | .ok v => some v

/-- Single-store ingestion fold over a list of ledgers, used to state
per-index properties of the replay. -/
def ingestFold (payload : LedgerCloseMeta → List Nat) :
    LedgerBucketWindow (List Nat) → List LedgerCloseMeta →
      Option (LedgerBucketWindow (List Nat))
  | w, [] => some w
  | w, m :: rest =>
    match ingestLedger payload w m with
    | none => none
    | some w2 => ingestFold payload w2 rest

/-- Contiguity of a ledger meta list: sequences are s, s+1, s+2, ... -/
def contiguousFrom : Nat → List LedgerCloseMeta → Bool
  | _, [] => true
  | s, m :: rest => (m.sequence == s) && contiguousFrom (s + 1) rest

/-- All ledger metas in the list decode successfully. -/
def allWellFormed (ms : List LedgerCloseMeta) : Bool :=
  ms.all (fun m => m.wellFormed)

/-- The default event ledger retention window constant of the
ledgerbucketwindow package. Modelled from the spec: the package is not in
this tree; the spec requires it to be a positive constant (the claims below
depend only on its positivity). -/
def DefaultEventLedgerRetentionWindow : Nat := 17280

/-- The maxRetentionWindow computation of daemon.MustNew: start from the
event window; take the transaction window if larger; otherwise, if the event
window is 0 and the transaction window exceeds the default, substitute the
default. -/
def maxRetentionWindow (eventW txW : Nat) : Nat :=
  if txW > eventW then txW
  else if eventW = 0 ∧ txW > DefaultEventLedgerRetentionWindow then
    DefaultEventLedgerRetentionWindow
  else eventW

/-- Whether the default-substituting else-if branch of the
maxRetentionWindow computation is taken. -/
def maxRetentionWindowDefaultBranchTaken (eventW txW : Nat) : Bool :=
  !(decide (txW > eventW)) && (eventW == 0)
    && decide (txW > DefaultEventLedgerRetentionWindow)

/-- Modelled from the spec: NewMemoryStore substitutes the positive default
for a configured window of 0 (a configured value of 0 must default to a
positive constant); the events and ledgerbucketwindow packages are not in
this tree. -/
def effectiveRetentionWindow (configured : Nat) : Nat :=
  if configured = 0 then DefaultEventLedgerRetentionWindow else configured

/-- The config.Config fields relevant to validation and to the core options
named by the spec (widths do not matter for the properties proved here). -/
structure Config where
  Strict : Bool
  BucketDirPath : String
  StellarCoreBinaryPath : String
  CheckpointFrequency : Nat
  CoreRequestTimeout : Nat
  DefaultEventsLimit : Nat
  EventLedgerRetentionWindow : Nat
  HistoryArchiveURLs : List String
  IngestionTimeout : Nat
  MaxEventsLimit : Nat
  NetworkPassphrase : String
  PreflightWorkerCount : Nat
  PreflightWorkerQueueSize : Nat
  SQLiteDBPath : String
  TransactionLedgerRetentionWindow : Nat
deriving Repr, DecidableEq

/-- config.Config.Validate: returns the first applicable error (some) or nil
(none). It checks, in order: default events limit versus max events limit,
history archive URLs nonempty, network passphrase nonempty, Strict
forbidding BucketDirPath, and the core binary path nonempty. -/
def Config.Validate (cfg : Config) : Option String :=
  if cfg.DefaultEventsLimit > cfg.MaxEventsLimit then
    some "default-events-limit cannot exceed max-events-limit"
  else if cfg.HistoryArchiveURLs.length = 0 then
    some "history-archive-urls is blank"
  else if cfg.NetworkPassphrase = "" then
    some "network-passphrase is blank"
  else if cfg.Strict ∧ cfg.BucketDirPath ≠ "" then
    some "setting BUCKET_DIR_PATH is disallowed for Captive Core, use CAPTIVE_CORE_STORAGE_PATH instead"
  else if cfg.StellarCoreBinaryPath = "" then
    some "stellar-core-binary-path is blank"
  else
    none

/-- A ledger header as returned by the ledger reader; only the hash is
relevant to the handler property. -/
structure LedgerHeader where
  hashHex : String
deriving Repr, DecidableEq

/-- Core info as returned by the stellar core client. -/
structure CoreInfo where
  protocolVersion : Nat
deriving Repr, DecidableEq

/-- A jrpc2 error: a code and a message. -/
structure RpcError where
  code : Int
  message : String
deriving Repr, DecidableEq

/-- The jrpc2 code.InternalError value. -/
def codeInternalError : Int := -32603

/-- methods.GetLatestLedgerResponse. -/
structure GetLatestLedgerResponse where
  Hash : String
  ProtocolVersion : Nat
  Sequence : Nat
deriving Repr, DecidableEq

/-- Results of the four external dependencies consulted by the
getLatestLedger handler: read transaction creation, latest sequence lookup
in that transaction, ledger lookup (ok none encodes found = false), and
core info. -/
structure LatestLedgerDeps where
  newTx : Except String Unit
  getLatestLedgerSequence : Except String Nat
  getLedger : Except String (Option LedgerHeader)
  coreInfo : Except String CoreInfo
deriving Repr

/-- How many times the handler consulted each dependency. -/
structure DepCalls where
  newTxCalls : Nat
  seqCalls : Nat
  getLedgerCalls : Nat
  infoCalls : Nat
deriving Repr, DecidableEq

/-- The handler returned by methods.NewGetLatestLedgerHandler, with each
dependency consultation counted: create a read transaction, look up the
latest ledger sequence, look up that ledger, query core info; every failure
path returns a jrpc2 error with code.InternalError, the success path returns
the latest sequence, its ledger hash and the protocol version. -/
def getLatestLedgerHandler (w : LatestLedgerDeps) :
    Except RpcError GetLatestLedgerResponse × DepCalls :=
  let c0 : DepCalls := ⟨1, 0, 0, 0⟩
  match w.newTx with
  | .error _ =>
      (.error ⟨codeInternalError, "could not create read transaction"⟩, c0)
  | .ok _ =>
    let c1 : DepCalls := { c0 with seqCalls := 1 }
    match w.getLatestLedgerSequence with
    | .error _ =>
        (.error ⟨codeInternalError, "could not get latest ledger sequence"⟩, c1)
    | .ok latestSequence =>
      let c2 : DepCalls := { c1 with getLedgerCalls := 1 }
      match w.getLedger with
      | .error _ =>
          (.error ⟨codeInternalError, "could not get latest ledger"⟩, c2)
      | .ok none =>
          (.error ⟨codeInternalError, "could not get latest ledger"⟩, c2)
      | .ok (some latestLedger) =>
        let c3 : DepCalls := { c2 with infoCalls := 1 }
        match w.coreInfo with
        | .error e => (.error ⟨codeInternalError, e⟩, c3)
        | .ok info =>
            (.ok ⟨latestLedger.hashHex, info.protocolVersion, latestSequence⟩, c3)

/-- A diagnostic log line. -/
structure LogEntry where
  message : String
  err : String
deriving Repr, DecidableEq

/-- The retry notification observer installed by daemon.MustNew: it only
produces a diagnostic error log line for the failure. -/
def onIngestionRetry (err : String) (_backoffDuration : Nat) : LogEntry :=
  ⟨"could not run ingestion. Retrying", err⟩

/-- Phases of the ingestion pipeline. -/
inductive PipelinePhase where
  | catchingUp
  | live
  | stopped
deriving Repr, DecidableEq

/-- Observable pipeline state: phase, ingestion cursor, emitted diagnostics,
and the failures surfaced to RPC callers as request failures. -/
structure PipelineState where
  phase : PipelinePhase
  lastIngestedSequence : Nat
  logs : List LogEntry
  rpcFailuresSurfaced : List String
deriving Repr, DecidableEq

/-- Modelled from the spec: the Retrying transition of ingest.Service (not in
this tree). On a retryable failure the pipeline invokes the observer
(diagnostics only), keeps its cursor so the same ledger range is
re-attempted after backoff, and surfaces nothing to RPC callers. -/
def retryTransition (s : PipelineState) (err : String) (backoff : Nat) :
    PipelineState :=
  { s with logs := s.logs ++ [onIngestionRetry err backoff] }

/-- Results of the fallible sub-closes performed by Daemon.close, in source
order: JSON RPC server shutdown, admin server shutdown (only when an admin
endpoint was configured), ingestion service close, captive core close,
database close. The RPC handler close and the preflight pool close return
nothing. -/
structure CloseDeps where
  serverShutdownErr : Option String
  adminServerPresent : Bool
  adminShutdownErr : Option String
  ingestCloseErr : Option String
  coreCloseErr : Option String
  dbCloseErr : Option String
deriving Repr, DecidableEq

/-- The closeErrors slice accumulated by Daemon.close, in source order. -/
def collectCloseErrors (d : CloseDeps) : List String :=
  (match d.serverShutdownErr with | some e => [e] | none => []) ++
  (if d.adminServerPresent then
    (match d.adminShutdownErr with | some e => [e] | none => [])
   else []) ++
  (match d.ingestCloseErr with | some e => [e] | none => []) ++
  (match d.coreCloseErr with | some e => [e] | none => []) ++
  (match d.dbCloseErr with | some e => [e] | none => [])

/-- errors.Join: nil for an empty list, otherwise the newline join. -/
def errorsJoin (l : List String) : Option String :=
  match l with
  | [] => none
  | _ => some (String.intercalate "\x0a" l)

/-- Observable daemon lifecycle state for shutdown: the sync.Once flag, the
stored closeError, how many times the close body ran, and whether the done
channel has been closed. -/
structure DaemonLifecycle where
  onceDone : Bool
  closeError : Option String
  closeBodyRuns : Nat
  doneChannelClosed : Bool
deriving Repr, DecidableEq

/-- The initial lifecycle state of a constructed daemon. -/
def daemonStart : DaemonLifecycle :=
  ⟨false, none, 0, false⟩

/-- Daemon.close: runs the shutdown sequence, joins the collected errors into
closeError, and closes the done channel. -/
def Daemon.closeBody (d : CloseDeps) (st : DaemonLifecycle) : DaemonLifecycle :=
  { st with
    closeError := errorsJoin (collectCloseErrors d),
    closeBodyRuns := st.closeBodyRuns + 1,
    doneChannelClosed := true }

/-- Daemon.Close: closeOnce.Do(close) then return closeError. -/
def Daemon.Close (d : CloseDeps) (st : DaemonLifecycle) :
    DaemonLifecycle × Option String :=
  let st2 := if st.onceDone then st
             else { Daemon.closeBody d st with onceDone := true }
  (st2, st2.closeError)

/-- n successive calls of Daemon.Close, collecting the returned values. -/
def Daemon.CloseCalls (d : CloseDeps) (st : DaemonLifecycle) :
    Nat → DaemonLifecycle × List (Option String)
  | 0 => (st, [])
  | n + 1 =>
    let step := Daemon.Close d st
    let rest := Daemon.CloseCalls d step.1 n
    (rest.1, step.2 :: rest.2)

/-- A Go reflect value as traversed by config.mergeStructs: either a
non-struct value (with its IsZero flag and an identifying payload) or a
struct given by its fields, each tagged with whether it is exported
(settable). -/
inductive GoValue where
  | base (isZero : Bool) (data : Nat)
  | strct (fields : List (Bool × GoValue))
deriving Repr

mutual

/-- reflect Value.IsZero: a base value reports its flag, a struct is zero
when all its fields are. -/
def GoValue.isZeroVal : GoValue → Bool
  | .base z _ => z
  | .strct fs => goFieldsZero fs

/-- IsZero over a field list. -/
def goFieldsZero : List (Bool × GoValue) → Bool
  | [] => true
  | (_, v) :: rest => v.isZeroVal && goFieldsZero rest

end

mutual

/-- The zero value of the type of a value, as produced by reflect.New. -/
def GoValue.zeroVal : GoValue → GoValue
  | .base _ _ => .base true 0
  | .strct fs => .strct (goFieldsZeroVal fs)

/-- Zero values over a field list. -/
def goFieldsZeroVal : List (Bool × GoValue) → List (Bool × GoValue)
  | [] => []
  | (e, v) :: rest => (e, v.zeroVal) :: goFieldsZeroVal rest

end

mutual

/-- Type equality of two reflect values, as skeleton equality: same kind,
and for structs the same field count with matching exported flags and
recursively matching field types. -/
def GoValue.sameType : GoValue → GoValue → Bool
  | .base _ _, .base _ _ => true
  | .strct fa, .strct fb => goFieldsSameType fa fb
  | _, _ => false

/-- Type equality over field lists. -/
def goFieldsSameType : List (Bool × GoValue) → List (Bool × GoValue) → Bool
  | [], [] => true
  | (ea, va) :: ra, (eb, vb) :: rb =>
      (ea == eb) && va.sameType vb && goFieldsSameType ra rb
  | _, _ => false

end

mutual

/-- config.mergeStructs on two struct values of the same type: build a new
struct field by field (the type-mismatch guard, a panic in the source, is
modelled in Config.Merge below). -/
def mergeStructs : GoValue → GoValue → GoValue
  | .strct fa, .strct fb => .strct (mergeFields fa fb)
  | _, b => b

/-- The per-field loop of config.mergeStructs: an unexported field cannot be
set and stays the zero value of the freshly allocated struct; otherwise take
the b field, fall back to the a field when the b field is zero, and when the
selected value is a struct recurse on the pair of fields instead. -/
def mergeFields : List (Bool × GoValue) → List (Bool × GoValue) →
    List (Bool × GoValue)
  | (ea, va) :: ra, (_, vb) :: rb =>
      (ea,
        if ea then
          (let v := if vb.isZeroVal then va else vb
           match v with
           | .strct _ => mergeStructs va vb
           | _ => v)
        else va.zeroVal) :: mergeFields ra rb
  | _, _ => []

end

/-- config.Config.Merge: mergeStructs on the two config values; the source
panics when the types differ, modelled as none (two Config arguments always
have the same type, so the guard never fires there). -/
def Config.Merge (a b : GoValue) : Option GoValue :=
  if a.sameType b then some (mergeStructs a b) else none

/-- Whether a window would accept sequence seq as its next append: any
sequence on an empty window, otherwise exactly lastSequence + 1. -/
def windowAccepts {T : Type} (w : LedgerBucketWindow T) (seq : Nat) : Bool :=
  match w.buckets.getLast? with
  | none => true
  | some b => seq == b.sequence + 1

/-- The bucket an index derives from one ledger for a given payload view. -/
def bucketOf (payload : LedgerCloseMeta → List Nat) (m : LedgerCloseMeta) :
    LedgerBucket (List Nat) :=
  ⟨m.sequence, payload m⟩

/-- Three contiguous well-formed persisted ledgers used by concrete checks. -/
def exampleMetas : List LedgerCloseMeta :=
  [⟨100, true, [1], [4]⟩, ⟨101, true, [2], [5]⟩, ⟨102, true, [3], [6]⟩]

/-- A configuration whose recognized core options (retention windows,
ingestion timeout, preflight worker count and queue size) are all zero, yet
which satisfies every check Config.Validate performs. -/
def cfgZeroOptions : Config :=
  { Strict := false
    BucketDirPath := ""
    StellarCoreBinaryPath := "stellar-core"
    CheckpointFrequency := 64
    CoreRequestTimeout := 2
    DefaultEventsLimit := 100
    EventLedgerRetentionWindow := 0
    HistoryArchiveURLs := ["https://history.example.org"]
    IngestionTimeout := 0
    MaxEventsLimit := 10000
    NetworkPassphrase := "Test Network"
    PreflightWorkerCount := 0
    PreflightWorkerQueueSize := 0
    SQLiteDBPath := "soroban_rpc.sqlite"
    TransactionLedgerRetentionWindow := 0 }

/-- Dependency results where every step of the getLatestLedger handler
succeeds. -/
def depsAllOk : LatestLedgerDeps :=
  ⟨.ok (), .ok 7, .ok (some ⟨"ab12"⟩), .ok ⟨20⟩⟩

/-- Dependency results where creating the read transaction fails. -/
def depsTxFail : LatestLedgerDeps :=
  ⟨.error "io failure", .ok 0, .ok none, .ok ⟨0⟩⟩

/-- Concrete sub-close results used by the shutdown checks. -/
def closeDepsExample : CloseDeps :=
  ⟨some "shutdown timeout", true, none, some "ingest close failed", none, none⟩

/-- Fields of a concrete first merge operand: an exported base field, an
exported nested struct, an unexported base field, and an exported zero base
field. -/
def goAFields : List (Bool × GoValue) :=
  [(true, .base false 1),
   (true, .strct [(true, .base false 2), (false, .base false 3)]),
   (false, .base false 4),
   (true, .base true 0)]

/-- Fields of a concrete second merge operand of the same type, with zero
and non-zero entries interleaved relative to the first operand. -/
def goBFields : List (Bool × GoValue) :=
  [(true, .base true 0),
   (true, .strct [(true, .base false 9), (false, .base true 0)]),
   (false, .base false 5),
   (true, .base false 6)]

theorem evictToBound_eq_reverse_take {α : Type} (l : List α) (n : Nat) :
    evictToBound l n = (l.reverse.take n).reverse := by
  unfold evictToBound
  rw [List.take_reverse, List.reverse_reverse]

theorem evictToBound_of_length_le {α : Type} {l : List α} {n : Nat}
    (h : l.length ≤ n) : evictToBound l n = l := by
  unfold evictToBound
  rw [Nat.sub_eq_zero_of_le h, List.drop_zero]

theorem evictToBound_length_le {α : Type} (l : List α) (n : Nat) :
    (evictToBound l n).length ≤ n := by
  unfold evictToBound
  rw [List.length_drop]
  omega

theorem evictToBound_absorb {α : Type} (A C : List α) (n : Nat) :
    evictToBound (evictToBound A n ++ C) n = evictToBound (A ++ C) n := by
  rw [evictToBound_eq_reverse_take, evictToBound_eq_reverse_take,
    evictToBound_eq_reverse_take]
  rw [List.reverse_append, List.reverse_reverse, List.reverse_append]
  rw [List.take_append_eq_append_take, List.take_append_eq_append_take,
    List.take_take]
  rw [Nat.min_eq_left (Nat.sub_le _ _), List.length_reverse]

theorem evictToBound_getLast? {α : Type} (l : List α) (x : α) {n : Nat}
    (h : 1 ≤ n) : (evictToBound (l ++ [x]) n).getLast? = some x := by
  obtain ⟨k, rfl⟩ : ∃ k, n = k + 1 := ⟨n - 1, by omega⟩
  rw [evictToBound_eq_reverse_take, List.reverse_append]
  simp only [List.reverse_cons, List.reverse_nil, List.nil_append,
    List.cons_append, List.take_succ_cons, List.reverse_cons]
  exact List.getLast?_concat _

theorem replayLoop_agrees_live (ms : List LedgerCloseMeta) :
    ∀ (es : EventStore) (ts : TransactionStore) (tr : List Nat),
      ((startupReplayLoop es ts tr ms).1).toOption = liveIngestLedgers es ts ms := by
  induction ms with
  | nil => intro es ts tr; rfl
  | cons m rest ih =>
    intro es ts tr
    simp only [startupReplayLoop, liveIngestLedgers]
    cases hE : IngestEvents es m with
    | none => rfl
    | some es2 =>
      cases hT : IngestTransactions ts m with
      | none => rfl
      | some ts2 => exact ih es2 ts2 _

/-- C1: rebuilding the in-memory event and transaction indices at startup by
replaying the persisted ledgers oldest to newest through the same ingestion
path (IngestEvents and IngestTransactions) yields exactly the index contents
live ingestion of the same ledgers produces: the startup replay succeeds
with stores p exactly when the live path produces stores p. -/
theorem startup_rebuild_matches_live_ingestion (ms : List LedgerCloseMeta)
    (es : EventStore) (ts : TransactionStore) :
    (storeInitialization (.ok ms) es ts).toOption = liveIngestLedgers es ts ms :=
  replayLoop_agrees_live ms es ts []

theorem evictToBound_zero {α : Type} (l : List α) : evictToBound l 0 = [] := by
  unfold evictToBound
  rw [Nat.sub_zero, List.drop_length]

theorem contiguousFrom_drop (ms : List LedgerCloseMeta) :
    ∀ (s k : Nat), contiguousFrom s ms = true →
      contiguousFrom (s + k) (ms.drop k) = true := by
  induction ms with
  | nil => intro s k _; simp [contiguousFrom]
  | cons m rest ih =>
    intro s k hc
    cases k with
    | zero => simpa using hc
    | succ j =>
      simp only [contiguousFrom, Bool.and_eq_true, beq_iff_eq] at hc
      simp only [List.drop_succ_cons]
      have := ih (s + 1) j hc.2
      simpa [Nat.add_assoc, Nat.add_comm 1 j] using this

theorem allWellFormed_drop (ms : List LedgerCloseMeta) :
    ∀ (k : Nat), allWellFormed ms = true → allWellFormed (ms.drop k) = true := by
  induction ms with
  | nil => intro k _; simp [allWellFormed]
  | cons m rest ih =>
    intro k hw
    cases k with
    | zero => simpa using hw
    | succ j =>
      simp only [allWellFormed, List.all_cons, Bool.and_eq_true] at hw
      simp only [List.drop_succ_cons]
      exact ih j hw.2

theorem ingestFold_window (payload : LedgerCloseMeta → List Nat)
    (ms : List LedgerCloseMeta) :
    ∀ (s : Nat) (w : LedgerBucketWindow (List Nat)),
      contiguousFrom s ms = true → allWellFormed ms = true →
      windowAccepts w s = true →
      w.buckets.length ≤ w.retentionWindowSize →
      ingestFold payload w ms =
        some ⟨w.retentionWindowSize,
              evictToBound (w.buckets ++ ms.map (bucketOf payload))
                w.retentionWindowSize⟩ := by
  induction ms with
  | nil =>
    intro s w _ _ _ hlen
    simp only [ingestFold, List.map_nil, List.append_nil]
    rw [evictToBound_of_length_le hlen]
  | cons m rest ih =>
    intro s w hc hw hacc hlen
    simp only [contiguousFrom, Bool.and_eq_true, beq_iff_eq] at hc
    obtain ⟨hseq, hcrest⟩ := hc
    simp only [allWellFormed, List.all_cons, Bool.and_eq_true] at hw
    obtain ⟨hwf, hwrest⟩ := hw
    have hstep : ingestLedger payload w m =
        some ⟨w.retentionWindowSize,
              evictToBound (w.buckets ++ [bucketOf payload m])
                w.retentionWindowSize⟩ := by
      unfold ingestLedger
      rw [hwf]
      simp only [if_pos]
      unfold LedgerBucketWindow.append
      cases hlast : w.buckets.getLast? with
      | none =>
        have hnil : w.buckets = [] := List.getLast?_eq_none_iff.mp hlast
        rw [hnil]
        rfl
      | some lastB =>
        unfold windowAccepts at hacc
        rw [hlast] at hacc
        dsimp only at hacc
        have hs : s = lastB.sequence + 1 := beq_iff_eq.mp hacc
        have hcond : (⟨m.sequence, payload m⟩ : LedgerBucket (List Nat)).sequence =
            lastB.sequence + 1 := by
          simpa [hseq] using hs
        dsimp only
        rw [if_pos hcond]
        rfl
    have hacc2 : windowAccepts
        (⟨w.retentionWindowSize,
          evictToBound (w.buckets ++ [bucketOf payload m])
            w.retentionWindowSize⟩ : LedgerBucketWindow (List Nat)) (s + 1) = true := by
      unfold windowAccepts
      rcases Nat.eq_zero_or_pos w.retentionWindowSize with hz | hp
      · rw [hz, evictToBound_zero]
        rfl
      · rw [evictToBound_getLast? _ _ hp]
        simp [bucketOf, hseq]
    have hlen2 :
        (evictToBound (w.buckets ++ [bucketOf payload m])
          w.retentionWindowSize).length ≤ w.retentionWindowSize :=
      evictToBound_length_le _ _
    simp only [ingestFold, hstep]
    rw [ih (s + 1) _ hcrest hwrest hacc2 hlen2]
    simp only [List.map_cons]
    rw [evictToBound_absorb, List.append_assoc]
    rfl

theorem replayLoop_of_folds (ms : List LedgerCloseMeta) :
    ∀ (es ts : LedgerBucketWindow (List Nat)) (tr : List Nat)
      (E T : LedgerBucketWindow (List Nat)),
      ingestFold (fun meta => meta.eventPayload) es ms = some E →
      ingestFold (fun meta => meta.txPayload) ts ms = some T →
      startupReplayLoop es ts tr ms =
        (.ok (E, T), tr ++ ms.map (fun m => m.sequence)) := by
  induction ms with
  | nil =>
    intro es ts tr E T hE hT
    simp only [ingestFold, Option.some_inj] at hE hT
    simp [startupReplayLoop, hE, hT]
  | cons m rest ih =>
    intro es ts tr E T hE hT
    simp only [ingestFold] at hE hT
    cases h1 : ingestLedger (fun meta => meta.eventPayload) es m with
    | none => rw [h1] at hE; exact absurd hE (by simp)
    | some es2 =>
      rw [h1] at hE
      cases h2 : ingestLedger (fun meta => meta.txPayload) ts m with
      | none => rw [h2] at hT; exact absurd hT (by simp)
      | some ts2 =>
        rw [h2] at hT
        have hE1 : IngestEvents es m = some es2 := h1
        have hT1 : IngestTransactions ts m = some ts2 := h2
        simp only [startupReplayLoop, hE1, hT1]
        rw [ih es2 ts2 (tr ++ [m.sequence]) E T hE hT]
        simp [List.append_assoc]

/-- C2 counterexample: with three contiguous persisted ledgers and an event
index retention window of 1, the startup loop of MustNew passes all three
ledgers to the ingestion calls, not only the single ledger still inside the
event index retention window. -/
theorem startup_replay_exceeds_window_counterexample :
    (startupReplayLoop (freshStore 1) (freshStore 2) [] exampleMetas).2 =
      [100, 101, 102] ∧
    evictToBound (exampleMetas.map (fun m => m.sequence)) 1 = [102] ∧
    decide ((startupReplayLoop (freshStore 1) (freshStore 2) [] exampleMetas).2 =
      evictToBound (exampleMetas.map (fun m => m.sequence)) 1) = false := by
  refine ⟨by decide, by decide, by decide⟩


theorem ingestFold_suffix (payload : LedgerCloseMeta → List Nat)
    (ms : List LedgerCloseMeta) (s W : Nat)
    (hc : contiguousFrom s ms = true) (hw : allWellFormed ms = true) :
    ingestFold payload (freshStore W) (evictToBound ms W) =
      some ⟨W, evictToBound (ms.map (bucketOf payload)) W⟩ := by
  have hcd : contiguousFrom (s + (ms.length - W)) (evictToBound ms W) = true := by
    unfold evictToBound
    exact contiguousFrom_drop ms s (ms.length - W) hc
  have hwd : allWellFormed (evictToBound ms W) = true := by
    unfold evictToBound
    exact allWellFormed_drop ms (ms.length - W) hw
  have hsub := ingestFold_window payload (evictToBound ms W)
    (s + (ms.length - W)) (freshStore W) hcd hwd rfl (Nat.zero_le _)
  rw [hsub]
  have hmap : (evictToBound ms W).map (bucketOf payload) =
      evictToBound (ms.map (bucketOf payload)) W := by
    unfold evictToBound
    rw [List.map_drop, List.length_map]
  show some (LedgerBucketWindow.mk W
      (evictToBound ([] ++ (evictToBound ms W).map (bucketOf payload)) W)) = _
  rw [List.nil_append, hmap,
    evictToBound_of_length_le (evictToBound_length_le _ _)]

/-- C2 amended: at startup, when the durable store is non-empty, the
in-memory indices are rebuilt by replaying all persisted ledgers (which may
be more than fit any retention window), oldest to newest, via the same
ingestion path used live; because the windows evict, the resulting stores
nevertheless equal the stores obtained by replaying only each index's
in-window subset of the persisted ledgers. -/
theorem startup_replays_all_persisted_ledgers
    (ms : List LedgerCloseMeta) (s We Wt : Nat)
    (hc : contiguousFrom s ms = true) (hw : allWellFormed ms = true) :
    (startupReplayLoop (freshStore We) (freshStore Wt) [] ms).2 =
      ms.map (fun m => m.sequence) ∧
    (∃ E T,
      (startupReplayLoop (freshStore We) (freshStore Wt) [] ms).1 = .ok (E, T) ∧
      ingestFold (fun meta => meta.eventPayload) (freshStore We)
        (evictToBound ms We) = some E ∧
      ingestFold (fun meta => meta.txPayload) (freshStore Wt)
        (evictToBound ms Wt) = some T) := by
  have hE := ingestFold_window (fun meta => meta.eventPayload) ms s
    (freshStore We) hc hw rfl (Nat.zero_le _)
  have hT := ingestFold_window (fun meta => meta.txPayload) ms s
    (freshStore Wt) hc hw rfl (Nat.zero_le _)
  have hloop := replayLoop_of_folds ms (freshStore We) (freshStore Wt) [] _ _ hE hT
  refine ⟨by rw [hloop]; simp, ?_⟩
  refine ⟨_, _, by rw [hloop], ?_, ?_⟩
  · rw [ingestFold_suffix (fun meta => meta.eventPayload) ms s We hc hw]
    rfl
  · rw [ingestFold_suffix (fun meta => meta.txPayload) ms s Wt hc hw]
    rfl

/-- C2 amended witness: the amended property instantiated on three concrete
persisted ledgers with window sizes 1 and 2. -/
theorem startup_replays_all_persisted_ledgers_witness :
    (startupReplayLoop (freshStore 1) (freshStore 2) [] exampleMetas).2 =
      exampleMetas.map (fun m => m.sequence) :=
  (startup_replays_all_persisted_ledgers exampleMetas 100 1 2
    (by decide) (by decide)).1

/-- C3: at the failing configuration where both retention windows are
configured as 0, the store constructors substitute the positive default, but
the replay-depth constant MustNew passes to db.NewReadWriter is 0, not a
positive constant; the else-if branch meant to substitute the default cannot
save it (see the C4 theorem for its unreachability). -/
theorem zero_windows_yield_zero_replay_depth :
    maxRetentionWindow 0 0 = 0 ∧
    effectiveRetentionWindow 0 = DefaultEventLedgerRetentionWindow ∧
    0 < DefaultEventLedgerRetentionWindow := by
  refine ⟨by decide, by decide, by decide⟩

/-- C4: for every pair of configured window sizes, the replay-depth constant
computed by MustNew and passed to db.NewReadWriter equals the maximum of the
two configured retention windows, and the else-if branch substituting
DefaultEventLedgerRetentionWindow (reachable only when the transaction
window is at most the event window, the event window is 0, and the
transaction window exceeds the positive default) is never taken. -/
theorem replay_depth_is_max_of_windows (eventW txW : Nat) :
    maxRetentionWindow eventW txW = max eventW txW ∧
    maxRetentionWindowDefaultBranchTaken eventW txW = false := by
  have hdef : DefaultEventLedgerRetentionWindow = 17280 := rfl
  constructor
  · unfold maxRetentionWindow
    split_ifs with h1 h2
    · omega
    · rw [hdef] at h2
      omega
    · omega
  · unfold maxRetentionWindowDefaultBranchTaken
    rw [hdef]
    by_cases h1 : eventW < txW
    · simp [h1]
    · by_cases h2 : eventW = 0
      · subst h2
        have h3 : txW = 0 := by omega
        subst h3
        decide
      · simp [h2]

/-- C5 counterexample: a configuration whose event retention window,
transaction retention window, ingestion timeout, preflight worker count and
preflight worker queue size are all 0 (not positive integers) passes
Config.Validate without an error. -/
theorem validate_accepts_zero_core_options :
    Config.Validate cfgZeroOptions = none ∧
    cfgZeroOptions.EventLedgerRetentionWindow = 0 ∧
    cfgZeroOptions.TransactionLedgerRetentionWindow = 0 ∧
    cfgZeroOptions.IngestionTimeout = 0 ∧
    cfgZeroOptions.PreflightWorkerCount = 0 ∧
    cfgZeroOptions.PreflightWorkerQueueSize = 0 := by
  refine ⟨by decide, rfl, rfl, rfl, rfl, rfl⟩

/-- C5 amended: Config.Validate accepts a configuration exactly when the
default events limit does not exceed the max events limit, the history
archive URL list is nonempty, the network passphrase is nonempty, Strict
does not coincide with a set BucketDirPath, and the core binary path is
nonempty; it performs no positivity validation of the retention windows,
the ingestion timeout, or the preflight worker count and queue size (and
the ingestion batch size is a compile-time constant, not configuration). -/
theorem validate_checks_exactly (cfg : Config) :
    Config.Validate cfg = none ↔
      (cfg.DefaultEventsLimit ≤ cfg.MaxEventsLimit ∧
       0 < cfg.HistoryArchiveURLs.length ∧
       cfg.NetworkPassphrase ≠ "" ∧
       (cfg.Strict = true → cfg.BucketDirPath = "") ∧
       cfg.StellarCoreBinaryPath ≠ "") := by
  unfold Config.Validate
  split_ifs with h1 h2 h3 h4 h5
  · simp only [reduceCtorEq, false_iff]
    intro h
    omega
  · simp only [reduceCtorEq, false_iff]
    intro h
    omega
  · simp only [reduceCtorEq, false_iff]
    intro h
    exact h.2.2.1 h3
  · simp only [reduceCtorEq, false_iff]
    intro h
    exact h4.2 (h.2.2.2.1 h4.1)
  · simp only [reduceCtorEq, false_iff]
    intro h
    exact h.2.2.2.2 h5
  · simp only [true_iff]
    refine ⟨by omega, by omega, h3, ?_, h5⟩
    intro hstrict
    by_contra hbucket
    exact h4 ⟨hstrict, hbucket⟩

/-- C5 amended witness: the acceptance characterization applied to the
concrete zero-options configuration. -/
theorem validate_checks_exactly_witness :
    Config.Validate cfgZeroOptions = none :=
  (validate_checks_exactly cfgZeroOptions).mpr
    ⟨by decide, by decide, by decide, by intro h; exact absurd h (by decide),
     by decide⟩

/-- C6: on a retryable ingestion failure the injected retry-notification
observer contributes only a diagnostic log entry, and the retry transition
changes no pipeline phase, no ingestion cursor (the same range is
re-attempted), and surfaces no failure to any RPC caller. -/
theorem retry_observer_is_diagnostic_only (s : PipelineState) (err : String)
    (backoff : Nat) :
    (retryTransition s err backoff).rpcFailuresSurfaced = s.rpcFailuresSurfaced ∧
    (retryTransition s err backoff).lastIngestedSequence = s.lastIngestedSequence ∧
    (retryTransition s err backoff).phase = s.phase ∧
    (retryTransition s err backoff).logs =
      s.logs ++ [onIngestionRetry err backoff] ∧
    onIngestionRetry err backoff =
      ⟨"could not run ingestion. Retrying", err⟩ :=
  ⟨rfl, rfl, rfl, rfl, rfl⟩

/-- C7: the getLatestLedger handler consults each dependency at most once
(no internal retry); every success response carries the latest persisted
sequence from the read transaction and the hash of that ledger, and every
failure path returns an error with code.InternalError, synchronously. -/
theorem getLatestLedger_single_attempt (w : LatestLedgerDeps) :
    ((getLatestLedgerHandler w).2.newTxCalls ≤ 1 ∧
     (getLatestLedgerHandler w).2.seqCalls ≤ 1 ∧
     (getLatestLedgerHandler w).2.getLedgerCalls ≤ 1 ∧
     (getLatestLedgerHandler w).2.infoCalls ≤ 1) ∧
    (∀ resp, (getLatestLedgerHandler w).1 = .ok resp →
      w.getLatestLedgerSequence = .ok resp.Sequence ∧
      w.getLedger = .ok (some ⟨resp.Hash⟩)) ∧
    (∀ e, (getLatestLedgerHandler w).1 = .error e →
      e.code = codeInternalError) := by
  obtain ⟨tx, seq, led, info⟩ := w
  rcases tx with etx | utx
  · refine ⟨⟨by simp [getLatestLedgerHandler], by simp [getLatestLedgerHandler],
        by simp [getLatestLedgerHandler], by simp [getLatestLedgerHandler]⟩, ?_, ?_⟩
    · intro resp h
      exact absurd h (by simp [getLatestLedgerHandler])
    · intro e h
      simp only [getLatestLedgerHandler] at h
      cases h
      rfl
  · rcases seq with eseq | s
    · refine ⟨⟨by simp [getLatestLedgerHandler], by simp [getLatestLedgerHandler],
        by simp [getLatestLedgerHandler], by simp [getLatestLedgerHandler]⟩, ?_, ?_⟩
      · intro resp h
        exact absurd h (by simp [getLatestLedgerHandler])
      · intro e h
        simp only [getLatestLedgerHandler] at h
        cases h
        rfl
    · rcases led with eled | oled
      · refine ⟨⟨by simp [getLatestLedgerHandler], by simp [getLatestLedgerHandler],
        by simp [getLatestLedgerHandler], by simp [getLatestLedgerHandler]⟩, ?_, ?_⟩
        · intro resp h
          exact absurd h (by simp [getLatestLedgerHandler])
        · intro e h
          simp only [getLatestLedgerHandler] at h
          cases h
          rfl
      · rcases oled with _ | L
        · refine ⟨⟨by simp [getLatestLedgerHandler], by simp [getLatestLedgerHandler],
        by simp [getLatestLedgerHandler], by simp [getLatestLedgerHandler]⟩, ?_, ?_⟩
          · intro resp h
            exact absurd h (by simp [getLatestLedgerHandler])
          · intro e h
            simp only [getLatestLedgerHandler] at h
            cases h
            rfl
        · rcases info with einfo | i
          · refine ⟨⟨by simp [getLatestLedgerHandler], by simp [getLatestLedgerHandler],
        by simp [getLatestLedgerHandler], by simp [getLatestLedgerHandler]⟩, ?_, ?_⟩
            · intro resp h
              exact absurd h (by simp [getLatestLedgerHandler])
            · intro e h
              simp only [getLatestLedgerHandler] at h
              cases h
              rfl
          · refine ⟨⟨by simp [getLatestLedgerHandler], by simp [getLatestLedgerHandler],
        by simp [getLatestLedgerHandler], by simp [getLatestLedgerHandler]⟩, ?_, ?_⟩
            · intro resp h
              simp only [getLatestLedgerHandler] at h
              cases h
              exact ⟨rfl, rfl⟩
            · intro e h
              exact absurd h (by simp [getLatestLedgerHandler])

/-- C7 witness: the single-attempt property applied at a concrete
all-successful dependency assignment and at a failing read-transaction
assignment. -/
theorem getLatestLedger_single_attempt_witness :
    depsAllOk.getLatestLedgerSequence = .ok 7 ∧
    (⟨codeInternalError, "could not create read transaction"⟩ : RpcError).code =
      codeInternalError :=
  ⟨((getLatestLedger_single_attempt depsAllOk).2.1 ⟨"ab12", 20, 7⟩ rfl).1,
   (getLatestLedger_single_attempt depsTxFail).2.2
     ⟨codeInternalError, "could not create read transaction"⟩ rfl⟩

/-- C8 counterexample: errors during the startup replay of persisted ledgers
do terminate the process: a store read failure in GetAllLedgers and a decode
failure during replay both reach logger.Fatal inside MustNew. -/
theorem startup_replay_error_terminates :
    storeInitialization (.error "disk read failed") (freshStore 1) (freshStore 1) =
      .fatal "could obtain txmeta cache from the database" ∧
    storeInitialization (.ok [⟨100, false, [], []⟩]) (freshStore 1) (freshStore 1) =
      .fatal "could initialize event memory store" :=
  ⟨rfl, rfl⟩

/-- C8 amended: after construction, no operation of the core terminates the
process except an explicit shutdown signal, and a startup replay whose
ledgers ingest cleanly (equivalently, on which the live path succeeds) does
not terminate either; however, during MustNew any store read failure or
replay ingestion failure terminates the process through logger.Fatal. -/
theorem startup_terminates_exactly_on_replay_error
    (ms : List LedgerCloseMeta) (es : EventStore) (ts : TransactionStore)
    (p : EventStore × TransactionStore)
    (h : liveIngestLedgers es ts ms = some p) :
    storeInitialization (.ok ms) es ts = .ok p ∧
    (∀ e : String, storeInitialization (.error e) es ts =
      .fatal "could obtain txmeta cache from the database") := by
  constructor
  · have hagree := replayLoop_agrees_live ms es ts []
    rw [h] at hagree
    show (startupReplayLoop es ts [] ms).1 = .ok p
    cases hout : (startupReplayLoop es ts [] ms).1 with
    | fatal msg =>
      rw [hout] at hagree
      exact absurd hagree (by simp [StartupOutcome.toOption])
    | ok q =>
      rw [hout] at hagree
      simp only [StartupOutcome.toOption, Option.some_inj] at hagree
      rw [hagree]
  · intro e
    rfl

/-- C8 amended witness: a clean replay of the three concrete example ledgers
does not terminate, and a read error does. -/
theorem startup_terminates_exactly_on_replay_error_witness :
    storeInitialization (.ok exampleMetas) (freshStore 2) (freshStore 2) =
      .ok (⟨2, [⟨101, [2]⟩, ⟨102, [3]⟩]⟩, ⟨2, [⟨101, [5]⟩, ⟨102, [6]⟩]⟩) :=
  (startup_terminates_exactly_on_replay_error exampleMetas (freshStore 2)
    (freshStore 2) (⟨2, [⟨101, [2]⟩, ⟨102, [3]⟩]⟩, ⟨2, [⟨101, [5]⟩, ⟨102, [6]⟩]⟩)
    rfl).1

theorem closeCalls_after_done (d : CloseDeps) :
    ∀ (n : Nat) (st : DaemonLifecycle), st.onceDone = true →
      Daemon.CloseCalls d st n = (st, List.replicate n st.closeError) := by
  intro n
  induction n with
  | zero =>
    intro st h
    rfl
  | succ k ih =>
    intro st h
    simp only [Daemon.CloseCalls, Daemon.Close, h, if_true]
    rw [ih st h]
    rfl

/-- C9: Daemon.Close is idempotent: for any number of calls of at least one,
the shutdown body runs exactly once, and every call returns the error value
the first call computed (the join of the collected shutdown errors). -/
theorem daemon_close_idempotent (d : CloseDeps) (n : Nat) (h : 1 ≤ n) :
    (Daemon.CloseCalls d daemonStart n).1.closeBodyRuns = 1 ∧
    (Daemon.CloseCalls d daemonStart n).2 =
      List.replicate n (errorsJoin (collectCloseErrors d)) := by
  obtain ⟨k, rfl⟩ : ∃ k, n = k + 1 := ⟨n - 1, by omega⟩
  have hfirst : Daemon.Close d daemonStart =
      (⟨true, errorsJoin (collectCloseErrors d), 1, true⟩,
       errorsJoin (collectCloseErrors d)) := rfl
  simp only [Daemon.CloseCalls, hfirst]
  rw [closeCalls_after_done d k _ rfl]
  exact ⟨rfl, rfl⟩

/-- C9 witness: three successive Close calls on concrete sub-close results
run the body once and all return the first error value. -/
theorem daemon_close_idempotent_witness :
    (Daemon.CloseCalls closeDepsExample daemonStart 3).1.closeBodyRuns = 1 ∧
    (Daemon.CloseCalls closeDepsExample daemonStart 3).2 =
      List.replicate 3 (errorsJoin (collectCloseErrors closeDepsExample)) :=
  daemon_close_idempotent closeDepsExample 3 (by decide)

/-- C10: Config.Merge builds a new value (the embedding is pure, matching
the by-value Merge of the source): on same-typed structs it is mergeStructs
of the fields, and for every exported field position the merged field is the
b field when the b field is non-zero and the a field otherwise, except that
struct fields are always merged recursively field by field. -/
theorem merge_prefers_nonzero_b_fields :
    ∀ (fa fb : List (Bool × GoValue)) (i : Nat) (ea eb : Bool) (va vb : GoValue),
      goFieldsSameType fa fb = true →
      fa[i]? = some (ea, va) → fb[i]? = some (eb, vb) → ea = true →
      ((∀ z dd, va = .base z dd →
         (mergeFields fa fb)[i]? =
           some (ea, if vb.isZeroVal then va else vb)) ∧
       (∀ gs, va = .strct gs →
         (mergeFields fa fb)[i]? = some (ea, mergeStructs va vb))) ∧
      Config.Merge (.strct fa) (.strct fb) = some (.strct (mergeFields fa fb)) := by
  intro fa
  induction fa with
  | nil =>
    intro fb i ea eb va vb hsame hfa hfb hea
    exact absurd hfa (by simp)
  | cons hd ra ih =>
    intro fb i ea eb va vb hsame hfa hfb hea
    obtain ⟨ea0, va0⟩ := hd
    cases fb with
    | nil => exact absurd hsame (by simp [goFieldsSameType])
    | cons hd2 rb =>
      obtain ⟨eb0, vb0⟩ := hd2
      simp only [goFieldsSameType, Bool.and_eq_true, beq_iff_eq] at hsame
      obtain ⟨⟨heq, htype⟩, hrest⟩ := hsame
      have hMerge : Config.Merge (.strct ((ea0, va0) :: ra))
          (.strct ((eb0, vb0) :: rb)) =
          some (.strct (mergeFields ((ea0, va0) :: ra) ((eb0, vb0) :: rb))) := by
        unfold Config.Merge
        have hs : GoValue.sameType (.strct ((ea0, va0) :: ra))
            (.strct ((eb0, vb0) :: rb)) = true := by
          show goFieldsSameType ((ea0, va0) :: ra) ((eb0, vb0) :: rb) = true
          simp [goFieldsSameType, heq, htype, hrest]
        rw [hs]
        rfl
      refine ⟨?_, hMerge⟩
      cases i with
      | zero =>
        simp only [List.getElem?_cons_zero, Option.some_inj] at hfa hfb
        obtain ⟨rfl, rfl⟩ := Prod.mk.injEq _ _ _ _ ▸ And.intro
          (congrArg Prod.fst hfa) (congrArg Prod.snd hfa)
        obtain ⟨rfl, rfl⟩ := Prod.mk.injEq _ _ _ _ ▸ And.intro
          (congrArg Prod.fst hfb) (congrArg Prod.snd hfb)
        subst hea
        constructor
        · intro z dd hva
          subst hva
          cases vb with
          | strct gs => exact absurd htype (by simp [GoValue.sameType])
          | base zb db =>
            simp only [mergeFields, if_true, List.getElem?_cons_zero,
              Option.some_inj]
            by_cases hz : (GoValue.base zb db).isZeroVal
            · simp only [hz, if_true]
            · simp only [Bool.not_eq_true] at hz
              simp only [hz, Bool.false_eq_true, if_false]
        · intro gs hva
          subst hva
          cases vb with
          | base zb db => exact absurd htype (by simp [GoValue.sameType])
          | strct gsb =>
            simp only [mergeFields, if_true, List.getElem?_cons_zero,
              Option.some_inj]
            by_cases hz : (GoValue.strct gsb).isZeroVal
            · simp only [hz, if_true]
            · simp only [Bool.not_eq_true] at hz
              simp only [hz, Bool.false_eq_true, if_false]
      | succ j =>
        simp only [List.getElem?_cons_succ] at hfa hfb
        have := (ih rb j ea eb va vb hrest hfa hfb hea).1
        simp only [mergeFields, List.getElem?_cons_succ]
        exact this

/-- C10 witness: the merge semantics applied at concrete operands: position
0 is an exported base field with a zero b value (a wins), position 1 is an
exported struct field (recursive merge), and the top-level Merge succeeds. -/
theorem merge_prefers_nonzero_b_fields_witness :
    (mergeFields goAFields goBFields)[0]? = some (true, GoValue.base false 1) ∧
    (mergeFields goAFields goBFields)[1]? =
      some (true, mergeStructs (.strct [(true, .base false 2), (false, .base false 3)])
        (.strct [(true, .base false 9), (false, .base true 0)])) ∧
    Config.Merge (.strct goAFields) (.strct goBFields) =
      some (.strct (mergeFields goAFields goBFields)) := by
  refine ⟨?_, ?_, ?_⟩
  · have h := (merge_prefers_nonzero_b_fields goAFields goBFields 0 true true
      (.base false 1) (.base true 0) rfl rfl rfl rfl).1.1 false 1 rfl
    simpa using h
  · have h := (merge_prefers_nonzero_b_fields goAFields goBFields 1 true true
      (.strct [(true, .base false 2), (false, .base false 3)])
      (.strct [(true, .base false 9), (false, .base true 0)])
      rfl rfl rfl rfl).1.2 [(true, .base false 2), (false, .base false 3)] rfl
    simpa using h
  · exact (merge_prefers_nonzero_b_fields goAFields goBFields 0 true true
      (.base false 1) (.base true 0) rfl rfl rfl rfl).2
